import Mathlib

/-!
Shallow embedding of the EchoVision backend core (api.py, src/fuzzy_search.py,
src/document_processor.py, src/ai_summarizer.py, src/voice_assistant.py), with
theorems settling the frozen claims about the command-interpretation and
retrieval pipeline.

External collaborators (filesystem walks, the Gemini CLI, the Groq chat client,
the ChromaDB collection, document parsers) are modelled as explicit parameters;
everything written in the repository itself is translated directly.
-/

namespace EchoVision

/-! ## Basic string helpers (Python semantics) -/

/-- `a == b` elementwise check that `pat` begins the list. -/
def listStarts : List Char → List Char → Bool
  | [], _ => true
  | _ :: _, [] => false
  | a :: as, b :: bs => a == b && listStarts as bs

/-- Python `needle in hay` on char lists: `needle` occurs contiguously in `hay`. -/
def listHasSub (needle : List Char) : List Char → Bool
  | [] => needle.isEmpty
  | b :: bs => listStarts needle (b :: bs) || listHasSub needle bs

/-- Python's substring test `needle in hay`. -/
def pyIn (needle hay : String) : Bool :=
  listHasSub needle.toList hay.toList

/-- `any(k in c for k in ks)`. -/
def containsAny (c : String) (ks : List String) : Bool :=
  ks.any (fun k => pyIn k c)

/-- Python `str.lower()` (ASCII case mapping). -/
def pyLower (s : String) : String := String.mk (s.toList.map Char.toLower)

/-- Python `str.strip()`. -/
def pyStrip (s : String) : String :=
  String.mk (((s.toList.dropWhile Char.isWhitespace).reverse.dropWhile
    Char.isWhitespace).reverse)

/-- Python `str.startswith`. -/
def pyStartsWith (s pre : String) : Bool := listStarts pre.toList s.toList

/-- Python `str.endswith`. -/
def pyEndsWith (s post : String) : Bool :=
  listStarts post.toList.reverse s.toList.reverse

/-- Python `s[:n]` for nonnegative `n`. -/
def pyTake (s : String) (n : Nat) : String := String.mk (s.toList.take n)

/-- Fuel-indexed scanner of Python `str.replace` (left-to-right,
non-overlapping); `fuel` bounds the number of scan steps. -/
def replaceFuel (pat rep : List Char) : Nat → List Char → List Char
  | _, [] => []
  | 0, hay => hay
  | fuel + 1, a :: as =>
    if listStarts pat (a :: as) && !pat.isEmpty then
      rep ++ replaceFuel pat rep fuel ((a :: as).drop pat.length)
    else a :: replaceFuel pat rep fuel as

/-- Python `s.replace(pat, rep)`: all non-overlapping occurrences, scanning
left to right (the repository only ever replaces non-empty patterns). -/
def pyReplace (s pat rep : String) : String :=
  String.mk (replaceFuel pat.toList rep.toList s.toList.length s.toList)

/-- Maximal runs of characters not satisfying `sep` (accumulator-driven). -/
def splitRuns (sep : Char → Bool) (cur : List Char) : List Char → List (List Char)
  | [] => if cur.isEmpty then [] else [cur.reverse]
  | ch :: rest =>
    if sep ch then
      if cur.isEmpty then splitRuns sep [] rest
      else cur.reverse :: splitRuns sep [] rest
    else splitRuns sep (ch :: cur) rest

/-- Python `str.split()` with no argument: split on whitespace runs, dropping
empty pieces. -/
def pyWords (s : String) : List String :=
  (splitRuns Char.isWhitespace [] s.toList).map String.mk

/-- `os.path.basename` for forward-slash paths: the part after the last slash. -/
def pyBasename (p : String) : String :=
  String.mk ((p.toList.reverse.takeWhile (fun ch => ch != '/')).reverse)

/-! ## Stable descending sort

Python's `list.sort(key=..., reverse=True)` is a stable descending sort: equal
keys keep their original relative order.  We model it with a stable insertion
sort; any stable descending sort computes the same list. -/

/-- Insert `x` before the first element whose key is `≤ key x` (stability:
`x` goes after strictly greater keys only). -/
def stableInsertDesc (key : α → Int) (x : α) : List α → List α
  | [] => [x]
  | y :: ys => if key x < key y then y :: stableInsertDesc key x ys else x :: y :: ys

/-- Stable descending sort by `key` (model of Python `sort(key=key, reverse=True)`). -/
def stableSortDesc (key : α → Int) : List α → List α
  | [] => []
  | x :: xs => stableInsertDesc key x (stableSortDesc key xs)

/-! ## DocumentProcessor (src/document_processor.py)

Pages are the pre-parsed page sequence; the ChromaDB collection is an external
collaborator, modelled by its observable interface: a chunk count and a query
function that either fails (any exception) or returns the `documents` matrix. -/

structure Page where
  index : Int
  text : String
  label : String
  file_id : Int
deriving Repr, DecidableEq

/-- Model of the external ChromaDB collection held by the processor. -/
structure Collection where
  count : Nat
  queryRes : String → Nat → Except String (List (List String))

structure DocumentProcessor where
  pages : List Page
  current_page : Int
  file_path : Option String
  doc_type : Option String
  title : String
  collection : Option Collection

/-- The empty processor, as built by `DocumentProcessor.__init__`. -/
def DocumentProcessor.init : DocumentProcessor :=
  { pages := [], current_page := 0, file_path := none, doc_type := none,
    title := "Untitled Document", collection := none }

def DocumentProcessor.page_count (d : DocumentProcessor) : Nat :=
  d.pages.length

def DocumentProcessor.get_page (d : DocumentProcessor) (index : Int) : String :=
  if 0 ≤ index ∧ index < (d.pages.length : Int) then
    ((d.pages.get? index.toNat).map Page.text).getD ""
  else ""

def DocumentProcessor.get_current_text (d : DocumentProcessor) : String :=
  d.get_page d.current_page

def DocumentProcessor.get_current_label (d : DocumentProcessor) : String :=
  if 0 ≤ d.current_page ∧ d.current_page < (d.pages.length : Int) then
    ((d.pages.get? d.current_page.toNat).map Page.label).getD "Unknown"
  else "Unknown"

def DocumentProcessor.next_page (d : DocumentProcessor) : Bool × DocumentProcessor :=
  if d.current_page < (d.pages.length : Int) - 1 then
    (true, { d with current_page := d.current_page + 1 })
  else (false, d)

def DocumentProcessor.prev_page (d : DocumentProcessor) : Bool × DocumentProcessor :=
  if 0 < d.current_page then
    (true, { d with current_page := d.current_page - 1 })
  else (false, d)

def DocumentProcessor.go_to_page (d : DocumentProcessor) (index : Int) :
    Bool × DocumentProcessor :=
  if 0 ≤ index ∧ index < (d.pages.length : Int) then
    (true, { d with current_page := index })
  else (false, d)

/-- `get_full_text`: all page texts joined by blank lines, truncated to
`max_chars` characters. -/
def DocumentProcessor.get_full_text (d : DocumentProcessor) (max_chars : Nat) : String :=
  pyTake (String.intercalate "\n\n" (d.pages.map Page.text)) max_chars

/-- `get_relevant_context`: nearest chunks joined with a visible separator,
falling back to the first 10,000 characters of the full text when the
collection is absent or empty, when it returns nothing, or when the query
raises. -/
def DocumentProcessor.get_relevant_context (d : DocumentProcessor) (query : String)
    (n_results : Nat) : String :=
  match d.collection with
  | none => d.get_full_text 10000
  | some col =>
    if col.count = 0 then d.get_full_text 10000
    else
      let k := min n_results col.count
      if k = 0 then ""
      else
        match col.queryRes query k with
        | .error _ => d.get_full_text 10000
        | .ok documents =>
          if documents.isEmpty || (documents.headD []).isEmpty then
            d.get_full_text 10000
          else String.intercalate "\n...\n" (documents.headD [])

/-! ## AISummarizer.contextualize_query (src/ai_summarizer.py)

The Groq chat client is the external generation collaborator; we model a
non-streaming call as a function from the message list to `Except` (failure =
any exception).  The embedding additionally returns the number of collaborator
calls made, so that "makes no external call" is expressible. -/

structure ChatMsg where
  role : String
  content : String
deriving Repr, DecidableEq

def contextualizeSystemPrompt : String :=
  "You are a strict query reformulator. Given a chat history and the latest user query, your ONLY job is to rewrite the latest user query into a standalone searchable question that retains all context from the history.\n\nCRITICAL RULES:\n1. DO NOT answer the question.\n2. DO NOT say \x27I don\x27t have information\x27.\n3. ONLY return the rewritten standalone query.\n4. If the query is already standalone, return it exactly as is."

/-- `AISummarizer.contextualize_query`, instrumented with the count of chat
calls made (second component). -/
def contextualize_query (ready : Bool) (chat : List ChatMsg → Except String String)
    (question : String) (history : List ChatMsg) : String × Nat :=
  if !ready then (question, 0)
  else if history.isEmpty then (question, 0)
  else
    let msgs0 := ChatMsg.mk "system" contextualizeSystemPrompt ::
      (history.filter (fun m => m.role = "user" ∨ m.role = "assistant")).map
        (fun m => ChatMsg.mk m.role m.content)
    let msgs1 := if 5 < msgs0.length then
        msgs0.take 1 ++ msgs0.drop (msgs0.length - 4)
      else msgs0
    let messages := msgs1 ++ [ChatMsg.mk "user" question]
    match chat messages with
    | .ok content => (pyStrip content, 1)
    | .error _ => (question, 1)

/-! ## Numeral extraction (api.py `num_from`, voice_assistant.py `_extract_number`)

Both scan an ordered word dictionary by substring containment, then fall back
to the regex `\b(\d+)\b` (first word-delimited digit run). -/

/-- Python `\w` (ASCII-relevant part): letters, digits, underscore. -/
def isWordChar (ch : Char) : Bool := ch.isAlphanum || ch == '_'

def digitsVal (l : List Char) : Nat :=
  l.foldl (fun acc ch => acc * 10 + (ch.toNat - 48)) 0

/-- Scanner for `re.search(r'\b(\d+)\b', text)`: the first maximal digit run
whose neighbours (if any) are not word characters; returns its value. -/
def digitSearchAux : Option Char → List Char → Option Nat
  | _, [] => none
  | prev, ch :: rest =>
    if ch.isDigit && (match prev with | none => true | some p => !isWordChar p) then
      let run := (ch :: rest).takeWhile Char.isDigit
      let rest' := (ch :: rest).dropWhile Char.isDigit
      match rest' with
      | [] => some (digitsVal run)
      | c2 :: _ =>
        if !isWordChar c2 then some (digitsVal run)
        else digitSearchAux (some ch) rest
    else digitSearchAux (some ch) rest

def digitSearch (s : String) : Option Nat :=
  digitSearchAux none s.toList

/-- The word dictionary of api.py's `num_from` (insertion order). -/
def numWords : List (String × Nat) :=
  [("one", 1), ("two", 2), ("three", 3), ("four", 4), ("five", 5), ("six", 6),
   ("seven", 7), ("eight", 8), ("nine", 9), ("ten", 10), ("eleven", 11),
   ("twelve", 12), ("fifteen", 15), ("twenty", 20)]

/-- api.py `num_from`: first dictionary word contained in the text wins,
else the digit regex. -/
def num_from (text : String) : Option Nat :=
  match numWords.find? (fun wv => pyIn wv.1 text) with
  | some wv => some wv.2
  | none => digitSearch text

/-- The word dictionary of voice_assistant.py's `_extract_number`
(insertion order, one through twenty). -/
def extractNumberWords : List (String × Nat) :=
  [("one", 1), ("two", 2), ("three", 3), ("four", 4), ("five", 5), ("six", 6),
   ("seven", 7), ("eight", 8), ("nine", 9), ("ten", 10), ("eleven", 11),
   ("twelve", 12), ("thirteen", 13), ("fourteen", 14), ("fifteen", 15),
   ("sixteen", 16), ("seventeen", 17), ("eighteen", 18), ("nineteen", 19),
   ("twenty", 20)]

/-- voice_assistant.py `VoiceAssistant._extract_number`. -/
def extract_number (text : String) : Option Nat :=
  match extractNumberWords.find? (fun wv => pyIn wv.1 text) with
  | some wv => some wv.2
  | none => digitSearch text


/-! ## FuzzyFileLocator (src/fuzzy_search.py)

The directory tree is modelled as data; `walkFiles` plays `os.walk` plus the
in-loop pruning and extension filter of `search_files`.  The external
fuzzy scorer call `process.extractBests(target, choices, scorer=token_set_ratio,
limit=limit*3)` is a parameter mapping the choices list to scored matches. -/

inductive FSTree where
  | dir (dname : String) (subdirs : List FSTree) (dfiles : List String)

def FSTree.name : FSTree → String
  | .dir n _ _ => n

/-- The in-walk directory pruning: skip hidden dirs and known non-document dirs. -/
def keepDir (n : String) : Bool :=
  !(pyStartsWith n ".") && n ≠ "node_modules" && n ≠ ".git" && n ≠ "__pycache__"

/-- Supported document extensions (checked on the lower-cased filename). -/
def isDocFile (f : String) : Bool :=
  let l := pyLower f
  pyEndsWith l ".pdf" || pyEndsWith l ".docx" || pyEndsWith l ".doc" ||
    pyEndsWith l ".epub" || pyEndsWith l ".txt"

/-- The file-collection loop of `search_files` over `os.walk(search_dir)`:
document files of the current directory (joined onto the walk path), then the
kept subdirectories depth-first, in order. -/
def walkFiles : FSTree → String → List String
  | FSTree.dir _ subdirs files, path =>
    (files.filter isDocFile).map (fun f => path ++ "/" ++ f) ++
      ((subdirs.filter fun t => keepDir t.name).attach.flatMap
        fun t => walkFiles t.val (path ++ "/" ++ t.val.name))
termination_by t _ => sizeOf t
decreasing_by
  have h2 : t.val ∈ subdirs := (List.mem_filter.mp t.property).1
  have h3 := List.sizeOf_lt_of_mem h2
  simp only [FSTree.dir.sizeOf_spec]
  omega

/-- Python dict insertion `d[k] = v`: overwrite the value when the key exists
(keeping key order), else append. -/
def dictInsert (d : List (String × String)) (k v : String) : List (String × String) :=
  if d.any (fun kv => kv.1 == k) then
    d.map (fun kv => if kv.1 == k then (k, v) else kv)
  else d ++ [(k, v)]

structure ScoredFile where
  filename : String
  path : String
  score : Nat
deriving Repr, DecidableEq

/-- The phase-2 loop of `search_files`: walk the scorer's matches, skipping
short matches, scores `≤ 35` and already-seen paths, stopping once `limit`
results are collected. -/
def phase2 (dict : List (String × String)) (limit : Nat) :
    List (String × Nat) → List ScoredFile → List String → List ScoredFile
  | [], results, _ => results
  | (m, score) :: rest, results, seen =>
    if m.length < 3 then phase2 dict limit rest results seen
    else
      match dict.lookup m with
      | none => phase2 dict limit rest results seen
      | some full_path =>
        if 35 < score ∧ full_path ∉ seen then
          let results' := results ++ [ScoredFile.mk m full_path score]
          if limit ≤ results'.length then results'
          else phase2 dict limit rest results' (full_path :: seen)
        else phase2 dict limit rest results seen

/-- The `file_basenames` dictionary of `search_files`:
`{os.path.basename(f): f for f in all_files}`. -/
def basenameDict (files : List String) : List (String × String) :=
  files.foldl (fun d f => dictInsert d (pyBasename f) f) []

/-- `search_files(target_filename, search_dir, limit)`, with the walked tree
and the external scorer passed explicitly. -/
def search_files (extractBests : List String → List (String × Nat))
    (target_filename : String) (root : String) (tree : FSTree) (limit : Nat) :
    List ScoredFile :=
  let all_files := walkFiles tree root
  if all_files.isEmpty then []
  else
    let target_lower := pyLower target_filename
    let file_basenames := basenameDict all_files
    let exact := file_basenames.filter (fun kv => pyIn target_lower (pyLower kv.1))
    let results := exact.map (fun kv => ScoredFile.mk kv.1 kv.2 100)
    let seen := exact.map (fun kv => kv.2)
    if limit ≤ results.length then results.take limit
    else
      let best_matches := extractBests (file_basenames.map (fun kv => kv.1))
      stableSortDesc (fun r => (r.score : Int))
        (phase2 file_basenames limit best_matches results seen)

/-- Keep-first deduplication (set formation order in `thefuzz`). -/
def dedupKeepFirst : List String → List String
  | [] => []
  | a :: as => a :: (dedupKeepFirst as).filter (fun b => b ≠ a)

/-- Modelled from the spec: phase 2's external "fuzzy token-set similarity
scorer" (`thefuzz`'s `fuzz.token_set_ratio`, not part of this repository).
A token-set scorer tokenises both processed strings (lower-case, split at
non-alphanumerics) and compares the token intersection against each side's
combination; whenever one token set is contained in the other, the
intersection equals one of the two compared strings, so the similarity is
100.  Scores of other pairs come from the abstract `base` comparison. -/
def token_set_ratio_model (base : String → String → Nat) (a b : String) : Nat :=
  let toks : String → List String := fun s =>
    dedupKeepFirst ((splitRuns (fun ch => !ch.isAlphanum) [] (pyLower s).toList).map
      String.mk)
  let ta := toks a
  let tb := toks b
  if ta.filter (fun w => tb.contains w) = ta ∨ tb.filter (fun w => ta.contains w) = tb
  then 100
  else base a b

/-! ## The /api/command endpoint (api.py `command`)

The process-wide mutable state (disambiguation session, loaded document,
bookmark store) is passed and returned explicitly.  External effects — the
Gemini-CLI keyword extractor, the per-directory locator calls of the global
search, the `VoiceRead_Docs` directory listing, document parsing and the
vector-index build, and the persisted bookmarks of a newly selected file — are
supplied by an `Env` of collaborator functions. -/

structure FileEntry where
  name : String
  path : String
deriving Repr, DecidableEq

structure SessionState where
  awaiting_file : Bool
  files : List FileEntry
  files_offset : Nat
deriving Repr, DecidableEq

structure Bookmark where
  page : Int
  label : String
  note : String
deriving Repr, DecidableEq

/-- `BookmarkManager.add_bookmark` for the current document: update the
bookmark of an already-bookmarked page in place, else append. -/
def add_bookmark (bms : List Bookmark) (page_index : Int) (label note : String) :
    List Bookmark :=
  if bms.any (fun b => b.page == page_index) then
    bms.map (fun b =>
      if b.page == page_index then { b with label := label, note := note } else b)
  else bms ++ [⟨page_index, label, note⟩]

/-- The action dictionary returned per utterance; unspecified fields are absent. -/
structure Action where
  action : String
  message : Option String := none
  tts_text : Option String := none
  title : Option String := none
  ext : Option String := none
  page : Option Int := none
  total : Option Nat := none
  label : Option String := none
  text : Option String := none
  length : Option String := none
  question : Option String := none
  bookmarks : Option (List Bookmark) := none
deriving Repr, DecidableEq

/-- External collaborators consumed by `command`. -/
structure Env where
  /-- `get_filename_from_gemini`: keyword extraction via the `gemini` CLI. -/
  gemini : String → String
  /-- The concatenation, in directory order, of `search_files(target, d, limit=2)`
  over the existing search directories (Documents, Downloads, Desktop,
  VoiceRead_Docs). -/
  search_results : String → List ScoredFile
  /-- `os.listdir(VOICE_DOCS_DIR)` with each file's modification time. -/
  study_listing : List (String × Int)
  /-- Document parsing inside `DocumentProcessor.load`: the extracted pages and
  the doc type on success, `none` on any parse failure (exception). -/
  parse : String → Option (List Page × String)
  /-- Outcome of `_build_vector_index` over the freshly loaded pages. -/
  new_collection : List Page → Option Collection
  /-- `BookmarkManager.set_document`: the persisted bookmarks of a file. -/
  bookmarks_for : String → List Bookmark

/-- `DocumentProcessor.load` (non-append path): state is cleared first, so a
failed parse leaves an emptied document. -/
def DocumentProcessor.load (d : DocumentProcessor) (env : Env) (filepath : String) :
    Bool × DocumentProcessor :=
  let d1 : DocumentProcessor :=
    { d with pages := [], current_page := 0, file_path := some filepath,
             title := pyBasename filepath }
  match env.parse filepath with
  | none => (false, d1)
  | some pd =>
    let d2 := { d1 with pages := pd.1, doc_type := some pd.2 }
    if 0 < d2.pages.length then (true, { d2 with collection := env.new_collection d2.pages })
    else (false, d2)

structure CommandResult where
  action : Action
  session : SessionState
  doc : DocumentProcessor
  bookmarks : List Bookmark

/-- `page_state()`: merge the fresh page state into an action dictionary. -/
def pageStateFields (d : DocumentProcessor) (a : Action) : Action :=
  { a with page := some d.current_page, total := some d.page_count,
           label := some d.get_current_label, text := some d.get_current_text }

def browseKeys : List String :=
  ["open other file", "browse computer", "browse folders", "open different file",
   "open another file", "another file"]
def stopKeys : List String := ["stop", "pause", "quiet"]
def cancelKeys : List String := ["cancel", "nevermind"]
def nextKeys : List String := ["next", "more", "continue", "next page"]
def prevKeys : List String := ["previous", "back", "go back", "previous page"]
def searchKeys : List String := ["search for", "find my", "look for", "locate"]
def repeatKeys : List String :=
  ["repeat", "say that again", "what were the options", "repeat names"]
def openFileKeys : List String :=
  ["open file", "upload document", "upload file", "open document"]
def readKeys : List String := ["read document", "read page", "read this", "start reading"]
def prevPageKeys : List String := ["previous page", "prev page", "go back"]
def bookmarkSubKeys : List String := ["add", "save", "mark", "this"]

/-- `f['name'].replace('.pdf','').replace('.docx','').replace('.doc','')`. -/
def cleanName3 (s : String) : String :=
  pyReplace (pyReplace (pyReplace s ".pdf" "") ".docx" "") ".doc" ""

/-- The extension-stripped lower-cased name used by selection resolution. -/
def cleanName4 (s : String) : String :=
  pyReplace (pyReplace (pyReplace (pyReplace (pyLower s) ".pdf" "") ".docx" "") ".txt" "") ".epub" ""

/-- The spoken window listing built by both pagination branches. -/
def paginationListing (files : List FileEntry) (new_offset : Nat) : Action :=
  let chunk := (files.drop new_offset).take 5
  let tts_parts :=
    ("Reading files " ++ toString (new_offset + 1) ++ " to " ++
      toString (min (new_offset + 5) files.length) ++ ".") ::
    (chunk.enum.map (fun p =>
      toString (new_offset + p.1 + 1) ++ ": " ++ cleanName3 p.2.name ++ ".")) ++
    ["Say the number, the name, or \x27next\x27 for more."]
  { action := "speak", message := some "Listening for file selection...",
    tts_text := some (String.intercalate " " tts_parts) }

def VOICE_DOCS_DIR : String := "VoiceRead_Docs"

/-- The extension filter of the local "open file" branch (pdf/docx/doc only). -/
def isStudyDocName (f : String) : Bool :=
  pyEndsWith (pyLower f) ".pdf" || pyEndsWith (pyLower f) ".docx" || pyEndsWith (pyLower f) ".doc"

/-- api.py `command`: parse a natural-language voice command and return the
action plus the updated session, document and bookmark state. -/
def command (env : Env) (ai_ready : Bool) (doc : DocumentProcessor)
    (bm : List Bookmark) (session : SessionState) (text : String) : CommandResult :=
  let c := pyStrip (pyLower text)
  if containsAny c browseKeys then
    { action := { action := "open_file_dialog",
                  message := some "Opening computer file browser...",
                  tts_text := some "Opening your computer\x27s file browser. Please use your screen reader to select a file." },
      session := { session with awaiting_file := false }, doc := doc, bookmarks := bm }
  else if pyIn "help" c then
    { action := { action := "speak",
                  message := some "Commands: open file, read document, summarize, brief summary, detailed summary, next page, previous page, go to page N, bookmark this, go to bookmark, ask your question, export summary, stop." },
      session := session, doc := doc, bookmarks := bm }
  else if containsAny c stopKeys then
    { action := { action := "stop", message := some "Stopped." },
      session := { session with awaiting_file := false }, doc := doc, bookmarks := bm }
  else if session.awaiting_file then
    let files := session.files
    let offset := session.files_offset
    if containsAny c cancelKeys then
      { action := { action := "speak", message := some "Cancelled file selection.",
                    tts_text := some "Okay, cancelled." },
        session := { session with awaiting_file := false }, doc := doc, bookmarks := bm }
    else if containsAny c nextKeys then
      let new_offset := offset + 5
      if files.length ≤ new_offset then
        { action := { action := "speak",
                      message := some "You are at the end of the list. Say \x27previous\x27 to go back.",
                      tts_text := some "You are at the end of the list. Say \x27previous\x27 to go back." },
          session := session, doc := doc, bookmarks := bm }
      else
        { action := paginationListing files new_offset,
          session := { session with files_offset := new_offset },
          doc := doc, bookmarks := bm }
    else if containsAny c prevKeys then
      if offset = 0 then
        { action := { action := "speak",
                      message := some "You are at the beginning of the list. Say \x27next\x27 for more.",
                      tts_text := some "You are already at the beginning of the list. Say \x27next\x27 for more." },
          session := session, doc := doc, bookmarks := bm }
      else
        let new_offset := offset - 5
        { action := paginationListing files new_offset,
          session := { session with files_offset := new_offset },
          doc := doc, bookmarks := bm }
    else
      let n := num_from c
      let selected_file : Option FileEntry :=
        if (match n with
            | some v => decide (1 ≤ v) && decide (v ≤ files.length)
            | none => false) then
          files.get? (n.getD 1 - 1)
        else files.find? (fun f => pyIn (cleanName4 f.name) c)
      match selected_file with
      | some f =>
        let ld := doc.load env f.path
        if ld.1 then
          { action := pageStateFields ld.2 { action := "file_loaded",
                                             title := some (if ld.2.title = "" then f.name else ld.2.title),
                                             ext := some (ld.2.doc_type.getD "doc"),
                                             message := some ("Opened " ++ f.name ++ ". Say \x27read document\x27 to start."),
                                             tts_text := some ("Opened " ++ f.name ++ ". You can say \x27read document\x27 or \x27summarize\x27.") },
            session := { awaiting_file := false, files := [], files_offset := offset },
            doc := ld.2, bookmarks := env.bookmarks_for f.path }
        else
          { action := { action := "error",
                        message := some ("Could not load " ++ f.name ++ "."),
                        tts_text := some "Sorry, there was an error loading the file." },
            session := { session with awaiting_file := false },
            doc := ld.2, bookmarks := bm }
      | none =>
        { action := { action := "speak",
                      message := some "File not recognized. Please try say \x27open file\x27 again.",
                      tts_text := some "I didn\x27t catch that. Please try saying open file again." },
          session := { session with awaiting_file := false }, doc := doc, bookmarks := bm }
  else if containsAny c searchKeys then
    let target := env.gemini c
    let top_matches :=
      (stableSortDesc (fun m => (m.score : Int)) (env.search_results target)).take 5
    if top_matches.isEmpty then
      { action := { action := "speak",
                    message := some ("No files found matching \x27" ++ target ++ "\x27."),
                    tts_text := some ("I couldn\x27t find any documents matching " ++ target ++ ".") },
        session := session, doc := doc, bookmarks := bm }
    else
      let tts_parts :=
        ("I found " ++ toString top_matches.length ++ " matches for " ++ target ++ ".") ::
        (top_matches.enum.map (fun p =>
          toString (p.1 + 1) ++ ": " ++ cleanName3 p.2.filename ++ ".")) ++
        ["Which one would you like to open? Say the number, or say \x27repeat names\x27."]
      { action := { action := "speak",
                    message := some ("Found matching files. Say a number (1-" ++
                    toString top_matches.length ++ ") to select."),
                    tts_text := some (String.intercalate " " tts_parts) },
        session := { awaiting_file := true,
                     files := top_matches.map (fun m => FileEntry.mk m.filename m.path),
                     files_offset := 0 },
        doc := doc, bookmarks := bm }
  else if session.awaiting_file && containsAny c repeatKeys then
    -- the dedicated repeat-listing handler; unreachable while a disambiguation
    -- is open, because the awaiting branch above already returned
    let files := session.files
    let offset := session.files_offset
    let chunk := (files.drop offset).take 5
    let tts_parts := "Here are the options again." ::
      (chunk.enum.map (fun p =>
        toString (offset + p.1 + 1) ++ ": " ++ cleanName3 p.2.name ++ ".")) ++
      ["Say the number or name to open."]
    { action := { action := "speak", message := some "Repeating options...",
                  tts_text := some (String.intercalate " " tts_parts) },
      session := session, doc := doc, bookmarks := bm }
  else if containsAny c openFileKeys then
    let found_files := (stableSortDesc (fun nm => nm.2)
        (env.study_listing.filter (fun nm => isStudyDocName nm.1))).map
      (fun nm => FileEntry.mk nm.1 (VOICE_DOCS_DIR ++ "/" ++ nm.1))
    if found_files.isEmpty then
      { action := { action := "speak",
                    message := some "No documents found in VoiceRead_Docs folder. Say \x27open other file\x27 to browse your computer.",
                    tts_text := some "I could not find any documents on your study desk. Say \x27open other file\x27 to browse your computer." },
        session := session, doc := doc, bookmarks := bm }
    else
      let chunk := found_files.take 5
      let tts_parts :=
        ("I found " ++ toString found_files.length ++ " files on your study desk.") ::
        (chunk.enum.map (fun p =>
          toString (p.1 + 1) ++ ": " ++ cleanName3 p.2.name ++ ".")) ++
        [if 5 < found_files.length then
          "Say the number, the name, say \x27next\x27, or say \x27open other file\x27 to browse your computer."
        else
          "Which one would you like to open? Say the number, the name, or say \x27open other file\x27 to browse your computer."]
      { action := { action := "speak",
                    message := some ("Listening for file selection (1-" ++
                    toString found_files.length ++ ")..."),
                    tts_text := some (String.intercalate " " tts_parts) },
        session := { awaiting_file := true, files := found_files, files_offset := 0 },
        doc := doc, bookmarks := bm }
  else if doc.page_count = 0 then
    { action := { action := "error", message := some "No document loaded." },
      session := session, doc := doc, bookmarks := bm }
  else if containsAny c readKeys then
    { action := pageStateFields doc { action := "read",
                                      tts_text := some (doc.get_current_label ++ ". " ++ doc.get_current_text) },
      session := session, doc := doc, bookmarks := bm }
  else if pyIn "next page" c || c == "next" || pyIn "forward" c then
    let doc' := doc.next_page.2
    { action := pageStateFields doc' { action := "navigate",
                                       message := some doc'.get_current_label },
      session := session, doc := doc', bookmarks := bm }
  else if containsAny c prevPageKeys then
    let doc' := doc.prev_page.2
    { action := pageStateFields doc' { action := "navigate",
                                       message := some doc'.get_current_label },
      session := session, doc := doc', bookmarks := bm }
  else if pyIn "go to page" c || pyIn "jump to page" c then
    let doc' := match num_from c with
      | some v => if v ≠ 0 then (doc.go_to_page ((v : Int) - 1)).2 else doc
      | none => doc
    { action := pageStateFields doc' { action := "navigate",
                                       message := some doc'.get_current_label },
      session := session, doc := doc', bookmarks := bm }
  else if pyIn "first page" c || pyIn "beginning" c then
    let doc' := (doc.go_to_page 0).2
    { action := pageStateFields doc' { action := "navigate" },
      session := session, doc := doc', bookmarks := bm }
  else if pyIn "last page" c || pyIn "end of" c then
    let doc' := (doc.go_to_page ((doc.page_count : Int) - 1)).2
    { action := pageStateFields doc' { action := "navigate" },
      session := session, doc := doc', bookmarks := bm }
  else if pyIn "short summary" c || pyIn "brief summary" c then
    { action := pageStateFields doc { action := "stream_summary", length := some "short" },
      session := session, doc := doc, bookmarks := bm }
  else if pyIn "detailed summary" c || pyIn "long summary" c then
    { action := pageStateFields doc { action := "stream_summary", length := some "detailed" },
      session := session, doc := doc, bookmarks := bm }
  else if pyIn "summarize" c || pyIn "summary" c then
    { action := pageStateFields doc { action := "stream_summary", length := some "medium" },
      session := session, doc := doc, bookmarks := bm }
  else if pyIn "bookmark" c && containsAny c bookmarkSubKeys then
    let bm' := add_bookmark bm doc.current_page doc.get_current_label ""
    { action := { action := "bookmark",
                  message := some ("Bookmarked: " ++ doc.get_current_label),
                  bookmarks := some bm' },
      session := session, doc := doc, bookmarks := bm' }
  else if pyIn "go to bookmark" c || pyIn "my bookmark" c then
    match bm.getLast? with
    | some b =>
      let doc' := (doc.go_to_page b.page).2
      { action := pageStateFields doc' { action := "navigate", message := some b.label },
        session := session, doc := doc', bookmarks := bm }
    | none =>
      { action := { action := "error", message := some "No bookmarks saved." },
        session := session, doc := doc, bookmarks := bm }
  else if 2 ≤ (pyWords c).length then
    if !ai_ready then
      { action := { action := "error", message := some "Gemini API key not configured." },
        session := session, doc := doc, bookmarks := bm }
    else
      { action := pageStateFields doc { action := "stream_answer", question := some c },
        session := session, doc := doc, bookmarks := bm }
  else
    { action := { action := "error", message := some ("Command not recognized: " ++ c) },
      session := session, doc := doc, bookmarks := bm }

/-! ## Shared concrete fixtures for witnesses and counterexamples -/

/-- A trivial collaborator environment: no files anywhere, every parse fails. -/
def env0 : Env :=
  { gemini := fun s => s, search_results := fun _ => [], study_listing := [],
    parse := fun _ => none, new_collection := fun _ => none,
    bookmarks_for := fun _ => [] }

/-- A one-page loaded document. -/
def doc1 : DocumentProcessor :=
  { DocumentProcessor.init with pages := [⟨0, "hello world text", "Page 1", 1⟩] }

/-- An awaiting disambiguation session over two candidates. -/
def sessRN : SessionState :=
  { awaiting_file := true,
    files := [FileEntry.mk "Report.pdf" "p1", FileEntry.mk "Notes.docx" "p2"],
    files_offset := 0 }

/-- A collection whose every query raises. -/
def colFail : Collection := { count := 1, queryRes := fun _ _ => Except.error "down" }

/-- A one-page document whose vector index always fails to answer. -/
def docC6 : DocumentProcessor :=
  { DocumentProcessor.init with
    pages := [⟨0, "x", "Page 1", 1⟩],
    collection := some colFail }


/-! ## Helper theorems -/

theorem stableInsertDesc_perm (key : α → Int) (x : α) (l : List α) :
    List.Perm (stableInsertDesc key x l) (x :: l) := by
  induction l with
  | nil => simp [stableInsertDesc]
  | cons y ys ih =>
    simp only [stableInsertDesc]
    split
    · exact ((ih.cons y).trans (List.Perm.swap x y ys))
    · exact List.Perm.refl _

theorem stableSortDesc_perm (key : α → Int) (l : List α) :
    List.Perm (stableSortDesc key l) l := by
  induction l with
  | nil => simp [stableSortDesc]
  | cons x xs ih =>
    exact (stableInsertDesc_perm key x (stableSortDesc key xs)).trans (ih.cons x)

theorem mem_stableSortDesc (key : α → Int) (l : List α) (a : α) :
    a ∈ stableSortDesc key l ↔ a ∈ l :=
  (stableSortDesc_perm key l).mem_iff

theorem length_stableSortDesc (key : α → Int) (l : List α) :
    (stableSortDesc key l).length = l.length :=
  (stableSortDesc_perm key l).length_eq

/-- Inserting an element whose key dominates the whole list puts it in front. -/
theorem stableInsertDesc_front (key : α → Int) (x : α) (m : Int) (l : List α)
    (hxm : key x = m) (hl : ∀ a ∈ l, key a ≤ m) :
    stableInsertDesc key x l = x :: l := by
  cases l with
  | nil => rfl
  | cons z zs =>
    have hz := hl z (by simp)
    simp [stableInsertDesc, hxm, not_lt.mpr hz]

/-- A block of maximal-key elements at the front is untouched by the stable
descending sort: sorting `xs ++ ys` where every element of `xs` has key `m` and
every element of `ys` has key `≤ m` keeps `xs` as a prefix, in order. -/
theorem stableSortDesc_max_block (key : α → Int) (m : Int) (xs ys : List α)
    (hx : ∀ a ∈ xs, key a = m) (hy : ∀ a ∈ ys, key a ≤ m) :
    stableSortDesc key (xs ++ ys) = xs ++ stableSortDesc key ys := by
  induction xs with
  | nil => simp
  | cons x xs ih =>
    have ih' := ih (fun a ha => hx a (by simp [ha]))
    have hstep : stableSortDesc key (x :: (xs ++ ys)) =
        stableInsertDesc key x (stableSortDesc key (xs ++ ys)) := rfl
    have hall : ∀ a ∈ xs ++ stableSortDesc key ys, key a ≤ m := by
      intro a ha
      rcases List.mem_append.mp ha with h | h
      · exact le_of_eq (hx a (by simp [h]))
      · exact hy a ((mem_stableSortDesc key ys a).mp h)
    rw [List.cons_append, hstep, ih',
      stableInsertDesc_front key x m _ (hx x (by simp)) hall, List.cons_append]

/-! ## C10 — failed navigation is atomic -/

/-- C10: `go_to_page` with an index outside `[0, page_count)` returns `False`
and leaves the processor (current page and page list) unchanged; `next_page`
on the last page and `prev_page` on the first page likewise return `False`
and change nothing. -/
theorem c10_failed_navigation_atomic :
    (∀ (d : DocumentProcessor) (i : Int), i < 0 ∨ (d.page_count : Int) ≤ i →
      d.go_to_page i = (false, d)) ∧
    (∀ d : DocumentProcessor, d.current_page = (d.page_count : Int) - 1 →
      d.next_page = (false, d)) ∧
    (∀ d : DocumentProcessor, d.current_page = 0 → d.prev_page = (false, d)) := by
  refine ⟨fun d i hi => ?_, fun d hd => ?_, fun d hd => ?_⟩
  · have : ¬(0 ≤ i ∧ i < (d.pages.length : Int)) := by
      rcases hi with h | h
      · exact fun hc => absurd hc.1 (not_le.mpr h)
      · exact fun hc => absurd hc.2 (not_lt.mpr h)
    simp [DocumentProcessor.go_to_page, this]
  · have : ¬(d.current_page < (d.pages.length : Int) - 1) := by
      rw [hd]; exact lt_irrefl _
    simp [DocumentProcessor.next_page, this]
  · have : ¬(0 < d.current_page) := by rw [hd]; exact lt_irrefl 0
    simp [DocumentProcessor.prev_page, this]

/-- Witness for C10 at a concrete one-page document. -/
theorem c10_witness :
    doc1.go_to_page 5 = (false, doc1) ∧ doc1.next_page = (false, doc1) ∧
      doc1.prev_page = (false, doc1) :=
  ⟨c10_failed_navigation_atomic.1 doc1 5 (Or.inr (by decide)),
   c10_failed_navigation_atomic.2.1 doc1 (by decide),
   c10_failed_navigation_atomic.2.2 doc1 (by decide)⟩

/-! ## C7 — query contextualization identity laws -/

/-- C7: with empty history the contextualizer returns the question unchanged
and performs no collaborator call (call counter 0); with non-empty history,
if every collaborator call fails, the question is still returned unchanged. -/
theorem c7_contextualize_preserves_question :
    (∀ (ready : Bool) (chat : List ChatMsg → Except String String) (q : String),
      contextualize_query ready chat q [] = (q, 0)) ∧
    (∀ (ready : Bool) (chat : List ChatMsg → Except String String) (q : String)
      (h : List ChatMsg) (e : String), h ≠ [] →
      (∀ msgs, chat msgs = Except.error e) →
      (contextualize_query ready chat q h).1 = q) := by
  constructor
  · intro ready chat q
    cases ready <;> simp [contextualize_query]
  · intro ready chat q h e hne hchat
    cases ready with
    | false => simp [contextualize_query]
    | true =>
      have hemp : h.isEmpty = false := by
        cases h with
        | nil => exact absurd rfl hne
        | cons a as => rfl
      simp only [contextualize_query, hemp, Bool.not_true, Bool.false_eq_true,
        if_false, if_true, hchat]

/-- Witness for C7: empty history is the identity with zero calls, and an
always-failing collaborator on a one-message history still yields the
question. -/
theorem c7_witness :
    contextualize_query true (fun _ => Except.ok "rewritten") "why" [] = ("why", 0) ∧
      (contextualize_query true (fun _ => Except.error "boom") "why"
        [ChatMsg.mk "user" "hi"]).1 = "why" :=
  ⟨c7_contextualize_preserves_question.1 true (fun _ => Except.ok "rewritten") "why",
   c7_contextualize_preserves_question.2 true (fun _ => Except.error "boom") "why"
     [ChatMsg.mk "user" "hi"] "boom" (by decide) (fun _ => rfl)⟩

/-! ## C6 — retrieval fallback -/

/-- C6 counterexample: with a non-empty index whose queries all fail and
`k = 0`, `get_relevant_context` returns the empty string, not the first
10,000 characters of the full text — the claim's "for every k" fails at
`k = 0`. -/
theorem c6_counterexample :
    docC6.get_relevant_context "q" 0 = "" ∧
      docC6.get_full_text 10000 = "x" ∧
      docC6.get_relevant_context "q" 0 ≠ docC6.get_full_text 10000 := by
  refine ⟨by decide, by decide, by decide⟩

/-- C6 (amended): for every query and every `k`, when the index is absent or
empty — and, for `k ≥ 1`, also when every index query fails — retrieval
returns exactly the first 10,000 characters of the page texts joined by blank
lines (and, being total, never raises). -/
theorem c6_retrieval_fallback (d : DocumentProcessor) (q : String) (k : Nat)
    (h : d.collection = none ∨ ∃ col, d.collection = some col ∧
      (col.count = 0 ∨ (1 ≤ k ∧ ∀ kk, ∃ e, col.queryRes q kk = Except.error e))) :
    d.get_relevant_context q k =
      pyTake (String.intercalate "\n\n" (d.pages.map Page.text)) 10000 := by
  have hfull : d.get_full_text 10000 =
      pyTake (String.intercalate "\n\n" (d.pages.map Page.text)) 10000 := rfl
  rcases h with h | ⟨col, hcol, hrest⟩
  · simp [DocumentProcessor.get_relevant_context, h, hfull]
  · rcases hrest with hcount | ⟨hk, hfail⟩
    · simp [DocumentProcessor.get_relevant_context, hcol, hcount, hfull]
    · rw [DocumentProcessor.get_relevant_context, hcol]
      by_cases hc0 : col.count = 0
      · simp [hc0, hfull]
      · have hmin : ¬(min k col.count = 0) := by
          rcases Nat.eq_zero_or_pos col.count with h0 | hpos
        -- count zero handled above
          · exact absurd h0 hc0
          · have := Nat.le_min.mpr ⟨hk, hpos⟩
            omega
        obtain ⟨e, he⟩ := hfail (min k col.count)
        simp [hc0, hmin, he, hfull]

/-- Witness for C6 (amended): an absent index yields the 10,000-character
fallback for any `k`, including the concrete `k = 5`. -/
theorem c6_witness :
    doc1.get_relevant_context "anything" 5 =
      pyTake (String.intercalate "\n\n" (doc1.pages.map Page.text)) 10000 :=
  c6_retrieval_fallback doc1 "anything" 5 (Or.inl rfl)

/-! ## C9 — numeral extraction -/

/-- C9 counterexample: "thirteen" is an English number word between one and
twenty and occurs in the utterance "thirteen", yet api.py's `num_from`
returns nothing for it (its dictionary stops at twelve plus fifteen/twenty);
the assistant's `_extract_number` does return 13. -/
theorem c9_counterexample :
    pyIn "thirteen" "thirteen" = true ∧ num_from "thirteen" = none ∧
      extract_number "thirteen" = some 13 := by
  refine ⟨by decide, by decide, by decide⟩

/-- C9 (amended): numeral extraction checks its word dictionary before the
digit regex — whenever some dictionary word occurs in the text the result is
the value of the first such dictionary entry, and only when no word occurs
does the digit regex decide; `num_from`'s dictionary is one..twelve plus
fifteen and twenty, `_extract_number`'s is one..twenty.  A single value is
returned (no aggregation). -/
theorem c9_numeral_extraction :
    (∀ text : String, numWords.any (fun wv => pyIn wv.1 text) = true →
      ∃ wv, numWords.find? (fun x => pyIn x.1 text) = some wv ∧
        pyIn wv.1 text = true ∧ num_from text = some wv.2) ∧
    (∀ text : String, numWords.any (fun wv => pyIn wv.1 text) = false →
      num_from text = digitSearch text) ∧
    (∀ text : String, extractNumberWords.any (fun wv => pyIn wv.1 text) = true →
      ∃ wv, extractNumberWords.find? (fun x => pyIn x.1 text) = some wv ∧
        pyIn wv.1 text = true ∧ extract_number text = some wv.2) ∧
    (∀ text : String, extractNumberWords.any (fun wv => pyIn wv.1 text) = false →
      extract_number text = digitSearch text) := by
  refine ⟨fun text h => ?_, fun text h => ?_, fun text h => ?_, fun text h => ?_⟩
  · obtain ⟨x, hx, hpx⟩ := List.any_eq_true.mp h
    have hsome : (numWords.find? (fun wv => pyIn wv.1 text)).isSome := by
      rw [List.find?_isSome]; exact ⟨x, hx, hpx⟩
    obtain ⟨wv, hwv⟩ := Option.isSome_iff_exists.mp hsome
    have hp : pyIn wv.1 text = true := by
      have h2 := List.find?_some hwv
      simpa using h2
    exact ⟨wv, hwv, hp, by simp [num_from, hwv]⟩
  · have hnone : numWords.find? (fun wv => pyIn wv.1 text) = none :=
      List.find?_eq_none.mpr (fun x hx => by
        have := List.any_eq_false.mp h x hx; simpa using this)
    simp [num_from, hnone]
  · obtain ⟨x, hx, hpx⟩ := List.any_eq_true.mp h
    have hsome : (extractNumberWords.find? (fun wv => pyIn wv.1 text)).isSome := by
      rw [List.find?_isSome]; exact ⟨x, hx, hpx⟩
    obtain ⟨wv, hwv⟩ := Option.isSome_iff_exists.mp hsome
    have hp : pyIn wv.1 text = true := by
      have h2 := List.find?_some hwv
      simpa using h2
    exact ⟨wv, hwv, hp, by simp [extract_number, hwv]⟩
  · have hnone : extractNumberWords.find? (fun wv => pyIn wv.1 text) = none :=
      List.find?_eq_none.mpr (fun x hx => by
        have := List.any_eq_false.mp h x hx; simpa using this)
    simp [extract_number, hnone]

/-- Witness for C9 (amended): the word branch fires on "seventeen" (the first
matching dictionary entry is "seven"), and "page 42" falls through to the
digit regex. -/
theorem c9_witness :
    (∃ wv, numWords.find? (fun x => pyIn x.1 "seventeen") = some wv ∧
      pyIn wv.1 "seventeen" = true ∧ num_from "seventeen" = some wv.2) ∧
      extract_number "page 42" = digitSearch "page 42" :=
  ⟨c9_numeral_extraction.1 "seventeen" (by decide),
   c9_numeral_extraction.2.2.2 "page 42" (by decide)⟩

/-! ## C3 — pagination bounds -/

/-- C3: while awaiting with `n` candidates at offset `o` (a multiple of 5,
`o < n`), a next-phrase utterance advances the offset to `o+5` when
`o+5 < n` and otherwise changes nothing while emitting the end-of-list
message; a previous-phrase utterance at offset 0 changes nothing and emits
the beginning-of-list message, and otherwise sets the offset to
`max(0, o-5)`; in all cases the offset stays below `n` (and, being a natural
number, never negative). -/
theorem c3_pagination :
    (∀ (env : Env) (ai : Bool) (doc : DocumentProcessor) (bm : List Bookmark)
        (files : List FileEntry) (off : Nat) (c : String),
      pyStrip (pyLower c) = c → 5 ∣ off → off < files.length →
      containsAny c browseKeys = false →
      pyIn "help" c = false →
      containsAny c stopKeys = false →
      containsAny c cancelKeys = false →
      containsAny c nextKeys = true →
      ((off + 5 < files.length →
        (command env ai doc bm ⟨true, files, off⟩ c).session = ⟨true, files, off + 5⟩ ∧
        (command env ai doc bm ⟨true, files, off⟩ c).action.action = "speak") ∧
       (files.length ≤ off + 5 →
        (command env ai doc bm ⟨true, files, off⟩ c).session = ⟨true, files, off⟩ ∧
        (command env ai doc bm ⟨true, files, off⟩ c).action.message =
          some "You are at the end of the list. Say \x27previous\x27 to go back.") ∧
       (command env ai doc bm ⟨true, files, off⟩ c).session.files_offset < files.length)) ∧
    (∀ (env : Env) (ai : Bool) (doc : DocumentProcessor) (bm : List Bookmark)
        (files : List FileEntry) (off : Nat) (c : String),
      pyStrip (pyLower c) = c → 5 ∣ off → off < files.length →
      containsAny c browseKeys = false →
      pyIn "help" c = false →
      containsAny c stopKeys = false →
      containsAny c cancelKeys = false →
      containsAny c nextKeys = false →
      containsAny c prevKeys = true →
      ((off = 0 →
        (command env ai doc bm ⟨true, files, off⟩ c).session = ⟨true, files, off⟩ ∧
        (command env ai doc bm ⟨true, files, off⟩ c).action.message =
          some "You are at the beginning of the list. Say \x27next\x27 for more.") ∧
       (0 < off →
        (command env ai doc bm ⟨true, files, off⟩ c).session = ⟨true, files, off - 5⟩ ∧
        (command env ai doc bm ⟨true, files, off⟩ c).action.action = "speak") ∧
       (command env ai doc bm ⟨true, files, off⟩ c).session.files_offset < files.length)) := by
  constructor
  · intro env ai doc bm files off c hnorm hdvd hlt hb hh hs hc hn
    have hcmd : command env ai doc bm ⟨true, files, off⟩ c =
        if files.length ≤ off + 5 then
          { action :=
              { action := "speak",
                message := some "You are at the end of the list. Say \x27previous\x27 to go back.",
                tts_text := some "You are at the end of the list. Say \x27previous\x27 to go back." },
            session := ⟨true, files, off⟩, doc := doc, bookmarks := bm }
        else
          { action := paginationListing files (off + 5),
            session := ⟨true, files, off + 5⟩, doc := doc, bookmarks := bm } := by
      simp [command, hnorm, hb, hh, hs, hc, hn]
    by_cases h5 : off + 5 < files.length
    · rw [hcmd, if_neg (not_le.mpr h5)]
      exact ⟨fun _ => ⟨rfl, rfl⟩, fun hle => absurd h5 (not_lt.mpr hle), h5⟩
    · have hle : files.length ≤ off + 5 := not_lt.mp h5
      rw [hcmd, if_pos hle]
      exact ⟨fun hlt5 => absurd hlt5 h5, fun _ => ⟨rfl, rfl⟩, hlt⟩
  · intro env ai doc bm files off c hnorm hdvd hlt hb hh hs hc hn hp
    have hcmd : command env ai doc bm ⟨true, files, off⟩ c =
        if off = 0 then
          { action :=
              { action := "speak",
                message := some "You are at the beginning of the list. Say \x27next\x27 for more.",
                tts_text := some "You are already at the beginning of the list. Say \x27next\x27 for more." },
            session := ⟨true, files, off⟩, doc := doc, bookmarks := bm }
        else
          { action := paginationListing files (off - 5),
            session := ⟨true, files, off - 5⟩, doc := doc, bookmarks := bm } := by
      simp [command, hnorm, hb, hh, hs, hc, hn, hp]
    by_cases h0 : off = 0
    · rw [hcmd, if_pos h0]
      refine ⟨fun _ => ⟨rfl, rfl⟩, fun hpos => absurd h0 (Nat.pos_iff_ne_zero.mp hpos), hlt⟩
    · rw [hcmd, if_neg h0]
      exact ⟨fun h0' => absurd h0' h0, fun _ => ⟨rfl, rfl⟩,
        lt_of_le_of_lt (Nat.sub_le off 5) hlt⟩

/-- Witness for C3: from offset 0 over six candidates, "next" advances to
offset 5; from offset 5, "previous" returns to offset 0; at the end and the
beginning the boundary messages are emitted without change. -/
theorem c3_witness :
    ((command env0 false DocumentProcessor.init []
        ⟨true, [⟨"a.pdf", "1"⟩, ⟨"b.pdf", "2"⟩, ⟨"c.pdf", "3"⟩, ⟨"d.pdf", "4"⟩,
          ⟨"e.pdf", "5"⟩, ⟨"f.pdf", "6"⟩], 0⟩ "next").session =
      ⟨true, [⟨"a.pdf", "1"⟩, ⟨"b.pdf", "2"⟩, ⟨"c.pdf", "3"⟩, ⟨"d.pdf", "4"⟩,
        ⟨"e.pdf", "5"⟩, ⟨"f.pdf", "6"⟩], 5⟩) ∧
    ((command env0 false DocumentProcessor.init []
        ⟨true, [⟨"a.pdf", "1"⟩, ⟨"b.pdf", "2"⟩, ⟨"c.pdf", "3"⟩, ⟨"d.pdf", "4"⟩,
          ⟨"e.pdf", "5"⟩, ⟨"f.pdf", "6"⟩], 5⟩ "previous").session =
      ⟨true, [⟨"a.pdf", "1"⟩, ⟨"b.pdf", "2"⟩, ⟨"c.pdf", "3"⟩, ⟨"d.pdf", "4"⟩,
        ⟨"e.pdf", "5"⟩, ⟨"f.pdf", "6"⟩], 0⟩) :=
  ⟨((c3_pagination.1 env0 false DocumentProcessor.init []
      [⟨"a.pdf", "1"⟩, ⟨"b.pdf", "2"⟩, ⟨"c.pdf", "3"⟩, ⟨"d.pdf", "4"⟩,
        ⟨"e.pdf", "5"⟩, ⟨"f.pdf", "6"⟩] 0 "next" (by decide) (by decide)
      (by decide) (by decide) (by decide) (by decide) (by decide) (by decide)).1
      (by decide)).1,
   ((c3_pagination.2 env0 false DocumentProcessor.init []
      [⟨"a.pdf", "1"⟩, ⟨"b.pdf", "2"⟩, ⟨"c.pdf", "3"⟩, ⟨"d.pdf", "4"⟩,
        ⟨"e.pdf", "5"⟩, ⟨"f.pdf", "6"⟩] 5 "previous" (by decide) (by decide)
      (by decide) (by decide) (by decide) (by decide) (by decide) (by decide)
      (by decide)).2.1 (by decide)).1⟩

/-! ## C1 — repeat phrase while awaiting (dead handler) -/

/-- C1 (code bug): with an awaiting disambiguation session, the repeat phrase
"repeat names" is swallowed by the selection-resolution branch of the awaiting
block — the session is consumed (`awaiting_file` becomes false) and a
not-recognized action is returned — instead of reaching api.py's dedicated
repeat-listing handler (lines 553-562), which requires `awaiting_file` and is
therefore unreachable: every path of the awaiting block returns first.  This
evaluates the code at the failing input. -/
theorem c1_repeat_consumes_session :
    (command env0 false DocumentProcessor.init [] sessRN "repeat names").session =
      ⟨false, sessRN.files, 0⟩ ∧
    (command env0 false DocumentProcessor.init [] sessRN "repeat names").action.action =
      "speak" ∧
    (command env0 false DocumentProcessor.init [] sessRN "repeat names").action.message =
      some "File not recognized. Please try say \x27open file\x27 again." ∧
    (command env0 false DocumentProcessor.init [] sessRN "repeat names").action.tts_text ≠
      some (String.intercalate " " ("Here are the options again." ::
        ((sessRN.files.drop 0).take 5).enum.map (fun p =>
          toString (0 + p.1 + 1) ++ ": " ++ cleanName3 p.2.name ++ ".") ++
        ["Say the number or name to open."])) := by
  refine ⟨by decide, by decide, by decide, by decide⟩

/-! ## C2 — disambiguation consumption -/

/-- While awaiting, any utterance that is not a help phrase and not a
pagination phrase leaves the session not-awaiting: the pre-awaiting branches
(browse, stop) and every non-pagination path of the awaiting block (cancel,
successful selection, failed load, not recognized) all clear `awaiting_file`. -/
theorem command_consumes_awaiting (env : Env) (ai : Bool) (doc : DocumentProcessor)
    (bm : List Bookmark) (s : SessionState) (text : String)
    (hawait : s.awaiting_file = true)
    (hh : pyIn "help" (pyStrip (pyLower text)) = false)
    (hn : containsAny (pyStrip (pyLower text)) nextKeys = false)
    (hp : containsAny (pyStrip (pyLower text)) prevKeys = false) :
    (command env ai doc bm s text).session.awaiting_file = false := by
  by_cases hb : containsAny (pyStrip (pyLower text)) browseKeys
  · simp [command, hb]
  · by_cases hs : containsAny (pyStrip (pyLower text)) stopKeys
    · simp [command, hb, hh, hs]
    · by_cases hcan : containsAny (pyStrip (pyLower text)) cancelKeys
      · simp [command, hb, hh, hs, hawait, hcan]
      · simp only [command, hb, hh, hs, hawait, hcan, hn, hp, Bool.false_eq_true,
          if_false, if_true, ite_true, ite_false]
        split <;> first
          | rfl
          | (split <;> rfl)

/-- C2: with the awaiting session over `["Report.pdf", "Notes.docx"]`, the
utterance "banana" (recognized as none of cancel, pagination, repeat, ordinal
or name) sets the session to Idle and returns the not-recognized action; the
subsequent ordinal "two" then yields an error action (never a file load); and
in general any awaiting-session utterance that is not a help or pagination
phrase leaves `awaiting_file` false — at most one resolution attempt is made
per listing. -/
theorem c2_disambiguation_consumed (env : Env) (ai : Bool)
    (doc : DocumentProcessor) (bm : List Bookmark) :
    ((command env ai doc bm sessRN "banana").action.action = "speak" ∧
     (command env ai doc bm sessRN "banana").action.message =
       some "File not recognized. Please try say \x27open file\x27 again." ∧
     (command env ai doc bm sessRN "banana").session =
       ⟨false, sessRN.files, 0⟩) ∧
    (command env ai (command env ai doc bm sessRN "banana").doc
      (command env ai doc bm sessRN "banana").bookmarks
      (command env ai doc bm sessRN "banana").session "two").action.action =
        "error" ∧
    (∀ (s : SessionState) (text : String), s.awaiting_file = true →
      pyIn "help" (pyStrip (pyLower text)) = false →
      containsAny (pyStrip (pyLower text)) nextKeys = false →
      containsAny (pyStrip (pyLower text)) prevKeys = false →
      (command env ai doc bm s text).session.awaiting_file = false) := by
  have hban : command env ai doc bm sessRN "banana" =
      { action :=
          { action := "speak",
            message := some "File not recognized. Please try say \x27open file\x27 again.",
            tts_text := some "I didn\x27t catch that. Please try saying open file again." },
        session := ⟨false, sessRN.files, 0⟩, doc := doc, bookmarks := bm } := by
    have h1 : pyStrip (pyLower "banana") = "banana" := by decide
    have hb : containsAny "banana" browseKeys = false := by decide
    have hh : pyIn "help" "banana" = false := by decide
    have hs : containsAny "banana" stopKeys = false := by decide
    have hcan : containsAny "banana" cancelKeys = false := by decide
    have hn : containsAny "banana" nextKeys = false := by decide
    have hp : containsAny "banana" prevKeys = false := by decide
    have hnum : num_from "banana" = none := by decide
    have hfind : List.find? (fun f => pyIn (cleanName4 f.name) "banana")
        [FileEntry.mk "Report.pdf" "p1", FileEntry.mk "Notes.docx" "p2"] = none := by
      decide
    simp [command, h1, hb, hh, hs, hcan, hn, hp, hnum, hfind, sessRN]
  have htwo : ∀ s2 : SessionState, s2.awaiting_file = false →
      (command env ai doc bm s2 "two").action.action = "error" := by
    intro s2 hs2
    have h1 : pyStrip (pyLower "two") = "two" := by decide
    have hb : containsAny "two" browseKeys = false := by decide
    have hh : pyIn "help" "two" = false := by decide
    have hs : containsAny "two" stopKeys = false := by decide
    have hse : containsAny "two" searchKeys = false := by decide
    have hof : containsAny "two" openFileKeys = false := by decide
    have hrd : containsAny "two" readKeys = false := by decide
    have hpp : containsAny "two" prevPageKeys = false := by decide
    have k1 : pyIn "next page" "two" = false := by decide
    have k2 : pyIn "forward" "two" = false := by decide
    have k3 : pyIn "go to page" "two" = false := by decide
    have k4 : pyIn "jump to page" "two" = false := by decide
    have k5 : pyIn "first page" "two" = false := by decide
    have k6 : pyIn "beginning" "two" = false := by decide
    have k7 : pyIn "last page" "two" = false := by decide
    have k8 : pyIn "end of" "two" = false := by decide
    have k9 : pyIn "short summary" "two" = false := by decide
    have k10 : pyIn "brief summary" "two" = false := by decide
    have k11 : pyIn "detailed summary" "two" = false := by decide
    have k12 : pyIn "long summary" "two" = false := by decide
    have k13 : pyIn "summarize" "two" = false := by decide
    have k14 : pyIn "summary" "two" = false := by decide
    have k15 : pyIn "bookmark" "two" = false := by decide
    have k16 : pyIn "go to bookmark" "two" = false := by decide
    have k17 : pyIn "my bookmark" "two" = false := by decide
    have hw : (pyWords "two").length = 1 := by decide
    by_cases hd : doc.page_count = 0
    · simp [command, h1, hb, hh, hs, hs2, hse, hof, hd]
    · simp [command, h1, hb, hh, hs, hs2, hse, hof, hd, hrd, hpp, k1, k2, k3, k4,
        k5, k6, k7, k8, k9, k10, k11, k12, k13, k14, k15, k16, k17, hw]
  refine ⟨?_, ?_, ?_⟩
  · rw [hban]; exact ⟨rfl, rfl, rfl⟩
  · rw [hban]
    exact htwo ⟨false, sessRN.files, 0⟩ rfl
  · intro s text hawait hh hn hp
    exact command_consumes_awaiting env ai doc bm s text hawait hh hn hp

/-- Witness for C2 at concrete state: the general consumption clause applied
to the awaiting session and the utterance "banana". -/
theorem c2_witness :
    (command env0 true doc1 [] sessRN "banana").session.awaiting_file = false :=
  (c2_disambiguation_consumed env0 true doc1 []).2.2 sessRN "banana" rfl
    (by decide) (by decide) (by decide)

/-! ## C8 — multi-word ask fallback -/

/-- C8 counterexample: a two-word utterance matching no intent rule, with a
document loaded and the AI collaborator not configured, yields the
API-key-not-configured error, not the unrecognized-command result that names
the offending text. -/
theorem c8_counterexample :
    (command env0 false doc1 [] ⟨false, [], 0⟩ "hello there").action =
      { action := "error", message := some "Gemini API key not configured." } ∧
    (command env0 false doc1 [] ⟨false, [], 0⟩ "hello there").action.message ≠
      some ("Command not recognized: " ++ "hello there") := by
  refine ⟨by decide, by decide⟩

/-- C8 (amended): for a normalized utterance matching no earlier intent rule
while a document is loaded: with ≥ 2 words and the AI collaborator configured
it is classified as a stream-answer (ask) action carrying the utterance as
the question; with ≥ 2 words but AI not configured it yields the
API-key-not-configured error action; with fewer than 2 words it yields the
unrecognized-command error action naming the text. -/
theorem c8_ask_fallback (env : Env) (ai : Bool) (doc : DocumentProcessor)
    (bm : List Bookmark) (s : SessionState) (c : String)
    (hnorm : pyStrip (pyLower c) = c)
    (hawait : s.awaiting_file = false)
    (hdoc : doc.page_count ≠ 0)
    (hb : containsAny c browseKeys = false)
    (hh : pyIn "help" c = false)
    (hs : containsAny c stopKeys = false)
    (hse : containsAny c searchKeys = false)
    (hof : containsAny c openFileKeys = false)
    (hrd : containsAny c readKeys = false)
    (hpp : containsAny c prevPageKeys = false)
    (k1 : pyIn "next page" c = false) (k1b : (c == "next") = false)
    (k2 : pyIn "forward" c = false)
    (k3 : pyIn "go to page" c = false) (k4 : pyIn "jump to page" c = false)
    (k5 : pyIn "first page" c = false) (k6 : pyIn "beginning" c = false)
    (k7 : pyIn "last page" c = false) (k8 : pyIn "end of" c = false)
    (k9 : pyIn "short summary" c = false) (k10 : pyIn "brief summary" c = false)
    (k11 : pyIn "detailed summary" c = false) (k12 : pyIn "long summary" c = false)
    (k13 : pyIn "summarize" c = false) (k14 : pyIn "summary" c = false)
    (k15 : pyIn "bookmark" c = false)
    (k16 : pyIn "go to bookmark" c = false) (k17 : pyIn "my bookmark" c = false) :
    (2 ≤ (pyWords c).length → ai = true →
      (command env ai doc bm s c).action.action = "stream_answer" ∧
      (command env ai doc bm s c).action.question = some c) ∧
    (2 ≤ (pyWords c).length → ai = false →
      (command env ai doc bm s c).action =
        { action := "error", message := some "Gemini API key not configured." }) ∧
    ((pyWords c).length < 2 →
      (command env ai doc bm s c).action =
        { action := "error", message := some ("Command not recognized: " ++ c) }) := by
  have hcmd : command env ai doc bm s c =
      if 2 ≤ (pyWords c).length then
        if ai = false then
          { action :=
              { action := "error",
                message := some "Gemini API key not configured." },
            session := s, doc := doc, bookmarks := bm }
        else
          { action := pageStateFields doc
              { action := "stream_answer", question := some c },
            session := s, doc := doc, bookmarks := bm }
      else
        { action :=
            { action := "error",
              message := some ("Command not recognized: " ++ c) },
          session := s, doc := doc, bookmarks := bm } := by
    cases ai <;>
      simp [command, hnorm, hawait, hdoc, hb, hh, hs, hse, hof, hrd, hpp, k1,
        k1b, k2, k3, k4, k5, k6, k7, k8, k9, k10, k11, k12, k13, k14, k15,
        k16, k17]
  by_cases hlen : 2 ≤ (pyWords c).length
  · cases ai with
    | false =>
      rw [hcmd, if_pos hlen]
      exact ⟨fun _ hai => absurd hai (by simp), fun _ _ => by simp, fun hlt =>
        absurd hlen (not_le.mpr hlt)⟩
    | true =>
      rw [hcmd, if_pos hlen]
      exact ⟨fun _ _ => ⟨rfl, rfl⟩, fun _ hai => absurd hai (by simp), fun hlt =>
        absurd hlen (not_le.mpr hlt)⟩
  · rw [hcmd, if_neg hlen]
    exact ⟨fun h2 _ => absurd h2 hlen, fun h2 _ => absurd h2 hlen, fun _ => rfl⟩

/-- Witness for C8 (amended): "hello there" with AI configured becomes a
stream-answer action. -/
theorem c8_witness :
    (command env0 true doc1 [] ⟨false, [], 0⟩ "hello there").action.action =
      "stream_answer" :=
  ((c8_ask_fallback env0 true doc1 [] ⟨false, [], 0⟩ "hello there" (by decide)
    rfl (by decide) (by decide) (by decide) (by decide) (by decide) (by decide)
    (by decide) (by decide) (by decide) (by decide) (by decide) (by decide)
    (by decide) (by decide) (by decide) (by decide) (by decide) (by decide)
    (by decide) (by decide) (by decide) (by decide) (by decide) (by decide)
    (by decide) (by decide)).1 (by decide) rfl).1

/-! ## C4/C5 — FuzzyFileLocator lemmas -/

theorem dictInsert_mem {d : List (String × String)} {k v : String}
    {kv : String × String} (h : kv ∈ dictInsert d k v) : kv ∈ d ∨ kv = (k, v) := by
  unfold dictInsert at h
  split at h
  · obtain ⟨a, ha, hfa⟩ := List.mem_map.mp h
    by_cases hk : a.1 == k
    · right
      rw [if_pos hk] at hfa
      exact hfa.symm
    · left
      rw [if_neg hk] at hfa
      exact hfa ▸ ha
  · rcases List.mem_append.mp h with h | h
    · exact Or.inl h
    · exact Or.inr (by simpa using h)

theorem dictInsert_keys (d : List (String × String)) (k v : String) :
    (dictInsert d k v).map Prod.fst = d.map Prod.fst ∨
    ((dictInsert d k v).map Prod.fst = d.map Prod.fst ++ [k] ∧
      k ∉ d.map Prod.fst) := by
  unfold dictInsert
  split
  · left
    rw [List.map_map]
    apply List.map_congr_left
    intro a _
    simp only [Function.comp_apply]
    split
    · rename_i hc
      exact (eq_of_beq hc).symm
    · rfl
  · right
    refine ⟨by simp, fun hk => ?_⟩
    obtain ⟨a, ha, hak⟩ := List.mem_map.mp hk
    rename_i hany
    exact hany (List.any_eq_true.mpr ⟨a, ha, by simp [hak]⟩)

theorem dictInsert_keys_nodup {d : List (String × String)} {k v : String}
    (h : (d.map Prod.fst).Nodup) : ((dictInsert d k v).map Prod.fst).Nodup := by
  rcases dictInsert_keys d k v with heq | ⟨heq, hnk⟩
  · rw [heq]; exact h
  · rw [heq]
    refine List.nodup_append.mpr ⟨h, List.nodup_singleton k, ?_⟩
    intro a ha hamem
    exact hnk ((List.mem_singleton.mp hamem) ▸ ha)

/-- The basename dictionary built by `search_files`: every entry's key is the
basename of its value, values come from the walked file list, and keys are
unique. -/
theorem foldl_dictInsert_ok (P : String → Prop) :
    ∀ (fs : List String) (d : List (String × String)),
      (∀ kv ∈ d, kv.1 = pyBasename kv.2 ∧ P kv.2) →
      ((d.map Prod.fst).Nodup) →
      (∀ f ∈ fs, P f) →
      (∀ kv ∈ fs.foldl (fun d f => dictInsert d (pyBasename f) f) d,
        kv.1 = pyBasename kv.2 ∧ P kv.2) ∧
      (((fs.foldl (fun d f => dictInsert d (pyBasename f) f) d).map
        Prod.fst).Nodup) := by
  intro fs
  induction fs with
  | nil => intro d hd hnd _; exact ⟨hd, hnd⟩
  | cons f fs ih =>
    intro d hd hnd hf
    have hd' : ∀ kv ∈ dictInsert d (pyBasename f) f,
        kv.1 = pyBasename kv.2 ∧ P kv.2 := by
      intro kv hkv
      rcases dictInsert_mem hkv with h | h
      · exact hd kv h
      · rw [h]; exact ⟨rfl, hf f (by simp)⟩
    exact ih (dictInsert d (pyBasename f) f) hd' (dictInsert_keys_nodup hnd)
      (fun g hg => hf g (by simp [hg]))

/-- Distinct keys force distinct values when each key is its value's basename. -/
theorem dict_values_nodup {D : List (String × String)}
    (hkv : ∀ kv ∈ D, kv.1 = pyBasename kv.2) (hnd : (D.map Prod.fst).Nodup) :
    (D.map Prod.snd).Nodup := by
  have hDnd : D.Nodup := List.Nodup.of_map Prod.fst hnd
  refine List.Nodup.map_on ?_ hDnd
  intro x hx y hy hxy
  have hx1 := hkv x hx
  have hy1 := hkv y hy
  have : x.1 = y.1 := by rw [hx1, hy1, hxy]
  exact Prod.ext this hxy

theorem lookup_mem {D : List (String × String)} {m v : String}
    (h : D.lookup m = some v) : (m, v) ∈ D := by
  induction D with
  | nil => simp [List.lookup] at h
  | cons kv rest ih =>
    obtain ⟨k1, v1⟩ := kv
    rw [List.lookup] at h
    by_cases hk : (m == k1) = true
    · have hm : m = k1 := eq_of_beq hk
      simp only [hk] at h
      have hv : v1 = v := by simpa using h
      rw [hm, ← hv]
      exact List.mem_cons_self _ _
    · have hkf : (m == k1) = false := by simpa using hk
      simp only [hkf] at h
      exact List.mem_cons_of_mem _ (ih h)

/-- Every file collected by the walk lies under the walk path. -/
theorem walkFiles_under (t : FSTree) (path : String) :
    ∀ p, p ∈ walkFiles t path → ∃ rest, p = path ++ "/" ++ rest := by
  induction t, path using walkFiles.induct with
  | _ dname subdirs files path ih =>
    intro p hp
    rw [walkFiles] at hp
    rcases List.mem_append.mp hp with h | h
    · obtain ⟨f, _, hf⟩ := List.mem_map.mp h
      exact ⟨f, hf.symm⟩
    · obtain ⟨tsub, _, hrec⟩ := List.mem_flatMap.mp h
      obtain ⟨rest, hrest⟩ := ih tsub p hrec
      refine ⟨tsub.val.name ++ "/" ++ rest, ?_⟩
      rw [hrest]
      simp [String.append_assoc]

/-- The phase-2 loop appends only entries looked up in the dictionary, with
score above 35, taken from the scorer's matches and with unseen paths; it
preserves path uniqueness and never exceeds `limit` results. -/
theorem phase2_spec (dict : List (String × String)) (limit : Nat) :
    ∀ (bmtch : List (String × Nat)) (results : List ScoredFile)
      (seen : List String),
      (∀ r ∈ results, r.path ∈ seen) →
      ((results.map (fun r => r.path)).Nodup) →
      results.length < limit →
      ∃ tail, phase2 dict limit bmtch results seen = results ++ tail ∧
        (∀ r ∈ tail, dict.lookup r.filename = some r.path ∧ 35 < r.score ∧
          (r.filename, r.score) ∈ bmtch ∧ r.path ∉ seen) ∧
        (((results ++ tail).map (fun r => r.path)).Nodup) ∧
        (results ++ tail).length ≤ limit := by
  intro bmtch
  induction bmtch with
  | nil =>
    intro results seen hsub hnd hlen
    exact ⟨[], by simp [phase2], by simp, by simpa using hnd,
      by simpa using Nat.le_of_lt hlen⟩
  | cons ms rest ih =>
    intro results seen hsub hnd hlen
    obtain ⟨m, score⟩ := ms
    by_cases hm3 : m.length < 3
    · have hstep : phase2 dict limit ((m, score) :: rest) results seen =
          phase2 dict limit rest results seen := by
        rw [phase2, if_pos hm3]
      rw [hstep]
      obtain ⟨tail, heq, hprops, hnd', hlen'⟩ := ih results seen hsub hnd hlen
      refine ⟨tail, heq, ?_, hnd', hlen'⟩
      intro r hr
      obtain ⟨h1, h2, h3, h4⟩ := hprops r hr
      exact ⟨h1, h2, List.mem_cons_of_mem _ h3, h4⟩
    · cases hup : dict.lookup m with
      | none =>
        have hstep : phase2 dict limit ((m, score) :: rest) results seen =
            phase2 dict limit rest results seen := by
          rw [phase2, if_neg hm3, hup]
        rw [hstep]
        obtain ⟨tail, heq, hprops, hnd', hlen'⟩ := ih results seen hsub hnd hlen
        refine ⟨tail, heq, ?_, hnd', hlen'⟩
        intro r hr
        obtain ⟨h1, h2, h3, h4⟩ := hprops r hr
        exact ⟨h1, h2, List.mem_cons_of_mem _ h3, h4⟩
      | some fp =>
        have hstep : phase2 dict limit ((m, score) :: rest) results seen =
            if 35 < score ∧ fp ∉ seen then
              (if limit ≤ (results ++ [ScoredFile.mk m fp score]).length
               then results ++ [ScoredFile.mk m fp score]
               else phase2 dict limit rest
                 (results ++ [ScoredFile.mk m fp score]) (fp :: seen))
            else phase2 dict limit rest results seen := by
          rw [phase2, if_neg hm3, hup]
        rw [hstep]
        by_cases hcond : 35 < score ∧ fp ∉ seen
        · rw [if_pos hcond]
          have hfp_new : fp ∉ results.map (fun r => r.path) := by
            intro hmem
            obtain ⟨r, hr, hrp⟩ := List.mem_map.mp hmem
            exact hcond.2 (hrp ▸ hsub r hr)
          have hnd1 : ((results ++ [ScoredFile.mk m fp score]).map
              (fun r => r.path)).Nodup := by
            rw [List.map_append]
            refine List.nodup_append.mpr ⟨hnd, List.nodup_singleton _, ?_⟩
            intro a ha hamem
            have : a = fp := by simpa using hamem
            exact hfp_new (this ▸ ha)
          by_cases hfull : limit ≤ (results ++ [ScoredFile.mk m fp score]).length
          · rw [if_pos hfull]
            refine ⟨[ScoredFile.mk m fp score], rfl, ?_, hnd1, ?_⟩
            · intro r hr
              have : r = ScoredFile.mk m fp score := by simpa using hr
              subst this
              exact ⟨hup, hcond.1, List.mem_cons_self _ _, hcond.2⟩
            · have : (results ++ [ScoredFile.mk m fp score]).length =
                  results.length + 1 := by simp
              omega
          · rw [if_neg hfull]
            have hlen1 : (results ++ [ScoredFile.mk m fp score]).length < limit := by
              omega
            have hsub1 : ∀ r ∈ results ++ [ScoredFile.mk m fp score],
                r.path ∈ fp :: seen := by
              intro r hr
              rcases List.mem_append.mp hr with h | h
              · exact List.mem_cons_of_mem _ (hsub r h)
              · have : r = ScoredFile.mk m fp score := by simpa using h
                subst this
                exact List.mem_cons_self _ _
            obtain ⟨tail, heq, hprops, hnd', hlen'⟩ :=
              ih (results ++ [ScoredFile.mk m fp score]) (fp :: seen) hsub1 hnd1 hlen1
            refine ⟨ScoredFile.mk m fp score :: tail, ?_, ?_, ?_, ?_⟩
            · rw [heq, List.append_assoc]
              rfl
            · intro r hr
              rcases List.mem_cons.mp hr with h | h
              · subst h
                exact ⟨hup, hcond.1, List.mem_cons_self _ _, hcond.2⟩
              · obtain ⟨h1, h2, h3, h4⟩ := hprops r h
                refine ⟨h1, h2, List.mem_cons_of_mem _ h3, fun hseen => ?_⟩
                exact h4 (List.mem_cons_of_mem _ hseen)
            · have : results ++ ScoredFile.mk m fp score :: tail =
                  (results ++ [ScoredFile.mk m fp score]) ++ tail := by
                simp
              rw [this]
              exact hnd'
            · have : (results ++ ScoredFile.mk m fp score :: tail).length =
                  ((results ++ [ScoredFile.mk m fp score]) ++ tail).length := by
                simp
              omega
        · rw [if_neg hcond]
          obtain ⟨tail, heq, hprops, hnd', hlen'⟩ := ih results seen hsub hnd hlen
          refine ⟨tail, heq, ?_, hnd', hlen'⟩
          intro r hr
          obtain ⟨h1, h2, h3, h4⟩ := hprops r hr
          exact ⟨h1, h2, List.mem_cons_of_mem _ h3, h4⟩

/-- Structure of `search_files`: either the exact-match early return, or the
stable descending sort of exact results plus phase-2 results, where exact
results carry score 100 and a basename containing the target and phase-2
results carry an unseen non-substring basename, a score above 35 taken from
the scorer's matches, and a walked path; paths are unique and (in the sorted
case) the total length is at most `limit`. -/
theorem search_files_spec (eb : List String → List (String × Nat))
    (target root : String) (tree : FSTree) (limit : Nat) :
    ∃ exact tail : List ScoredFile,
      (search_files eb target root tree limit = exact.take limit ∧ tail = [] ∨
       (search_files eb target root tree limit =
          stableSortDesc (fun r => (r.score : Int)) (exact ++ tail) ∧
        (exact ++ tail).length ≤ limit)) ∧
      (∀ r ∈ exact, pyIn (pyLower target) (pyLower r.filename) = true ∧
        r.score = 100 ∧ r.path ∈ walkFiles tree root) ∧
      (∀ r ∈ tail, pyIn (pyLower target) (pyLower r.filename) = false ∧
        35 < r.score ∧ r.path ∈ walkFiles tree root ∧
        (r.filename, r.score) ∈
          eb ((basenameDict (walkFiles tree root)).map Prod.fst)) ∧
      ((exact ++ tail).map (fun r => r.path)).Nodup := by
  cases hemp : (walkFiles tree root).isEmpty with
  | true =>
    refine ⟨[], [], Or.inl ⟨?_, rfl⟩, by simp, by simp, by simp⟩
    simp [search_files, hemp]
  | false =>
    have hok := foldl_dictInsert_ok (fun f => f ∈ walkFiles tree root)
      (walkFiles tree root) [] (by simp) (by simp) (fun f hf => hf)
    have hvals : ((basenameDict (walkFiles tree root)).map Prod.snd).Nodup :=
      dict_values_nodup (fun kv hkv => (hok.1 kv hkv).1) hok.2
    set D := basenameDict (walkFiles tree root) with hD
    set ex := D.filter (fun kv => pyIn (pyLower target) (pyLower kv.1)) with hex
    set res := ex.map (fun kv => ScoredFile.mk kv.1 kv.2 100) with hres
    set sn := ex.map (fun kv => kv.2) with hsn
    have hexact_vals_nodup : (ex.map Prod.snd).Nodup :=
      List.Nodup.sublist ((List.filter_sublist _).map Prod.snd) hvals
    have hres_path : res.map (fun r => r.path) = ex.map Prod.snd := by
      rw [hres, List.map_map]
      rfl
    have hres_nodup : (res.map (fun r => r.path)).Nodup := by
      rw [hres_path]
      exact hexact_vals_nodup
    have hres_props : ∀ r ∈ res, pyIn (pyLower target) (pyLower r.filename) = true ∧
        r.score = 100 ∧ r.path ∈ walkFiles tree root := by
      intro r hr
      rw [hres] at hr
      obtain ⟨kv, hkv, hmk⟩ := List.mem_map.mp hr
      subst hmk
      rw [hex] at hkv
      have hflt := List.mem_filter.mp hkv
      exact ⟨hflt.2, rfl, (hok.1 kv hflt.1).2⟩
    by_cases hlim : limit ≤ res.length
    · have heq : search_files eb target root tree limit = res.take limit := by
        simp only [search_files, hemp, Bool.false_eq_true, if_false,
          ← hD, ← hex, ← hres]
        rw [if_pos hlim]
      refine ⟨res, [], Or.inl ⟨heq, rfl⟩, hres_props, by simp, ?_⟩
      simpa using hres_nodup
    · have hsub : ∀ r ∈ res, r.path ∈ sn := by
        intro r hr
        rw [hres] at hr
        obtain ⟨kv, hkv, hmk⟩ := List.mem_map.mp hr
        subst hmk
        rw [hsn]
        exact List.mem_map.mpr ⟨kv, hkv, rfl⟩
      obtain ⟨tail, hphase, hprops, hnd', hlen'⟩ := phase2_spec D limit
        (eb (D.map Prod.fst)) res sn hsub hres_nodup (not_le.mp hlim)
      have heq : search_files eb target root tree limit =
          stableSortDesc (fun r => (r.score : Int)) (res ++ tail) := by
        have heq0 : search_files eb target root tree limit =
            stableSortDesc (fun r => (r.score : Int))
              (phase2 D limit (eb (D.map Prod.fst)) res sn) := by
          simp only [search_files, hemp, Bool.false_eq_true, if_false,
            ← hD, ← hex, ← hres, ← hsn]
          rw [if_neg hlim]
        rw [heq0, hphase]
      have htail_props : ∀ r ∈ tail,
          pyIn (pyLower target) (pyLower r.filename) = false ∧ 35 < r.score ∧
          r.path ∈ walkFiles tree root ∧
          (r.filename, r.score) ∈ eb (D.map Prod.fst) := by
        intro r hr
        obtain ⟨hlk, hsc, hbm, hns⟩ := hprops r hr
        have hmem : (r.filename, r.path) ∈ D := lookup_mem hlk
        have hinfo := hok.1 _ hmem
        refine ⟨?_, hsc, hinfo.2, hbm⟩
        cases hsubstr : pyIn (pyLower target) (pyLower r.filename) with
        | false => rfl
        | true =>
          exfalso
          have hmemex : (r.filename, r.path) ∈ ex := by
            rw [hex]
            exact List.mem_filter.mpr ⟨hmem, hsubstr⟩
          have : r.path ∈ sn := by
            rw [hsn]
            exact List.mem_map.mpr ⟨_, hmemex, rfl⟩
          exact hns this
      exact ⟨res, tail, Or.inr ⟨heq, hlen'⟩, hres_props, htail_props, hnd'⟩

/-- C5: every locator result list has length at most `limit`, contains no
duplicate path, and every returned path lies under the search root. -/
theorem c5_locator_results_bounded (eb : List String → List (String × Nat))
    (target root : String) (tree : FSTree) (limit : Nat) :
    (search_files eb target root tree limit).length ≤ limit ∧
    ((search_files eb target root tree limit).map (fun r => r.path)).Nodup ∧
    (∀ r ∈ search_files eb target root tree limit,
      ∃ rest, r.path = root ++ "/" ++ rest) := by
  obtain ⟨ex, tail, hcase, hexp, htailp, hnd⟩ :=
    search_files_spec eb target root tree limit
  rcases hcase with ⟨heq, htl⟩ | ⟨heq, hlen⟩
  · subst htl
    rw [heq]
    refine ⟨?_, ?_, ?_⟩
    · rw [List.length_take]
      exact Nat.min_le_left _ _
    · have hnd' : (ex.map (fun r => r.path)).Nodup := by simpa using hnd
      exact List.Nodup.sublist ((List.take_sublist _ _).map _) hnd'
    · intro r hr
      have hr' : r ∈ ex := List.take_subset _ _ hr
      exact walkFiles_under tree root r.path (hexp r hr').2.2
  · rw [heq]
    refine ⟨?_, ?_, ?_⟩
    · rw [length_stableSortDesc]
      exact hlen
    · have hperm := (stableSortDesc_perm (fun r => (r.score : Int))
        (ex ++ tail)).map (fun r => r.path)
      exact hperm.nodup_iff.mpr hnd
    · intro r hr
      have hr' : r ∈ ex ++ tail := (mem_stableSortDesc _ _ _).mp hr
      rcases List.mem_append.mp hr' with h | h
      · exact walkFiles_under tree root r.path (hexp r h).2.2
      · exact walkFiles_under tree root r.path (htailp r h).2.2.1

/-- C4 counterexample: with the token-set scorer, the non-substring pair
("report 2024", "2024 report.pdf") scores 100 (its token set is contained in
the other), and `search_files` keeps that score: the returned candidate has
score 100 although its basename does not contain the target as a substring,
refuting "score 100 reserved for exact substring matches / fuzzy strictly
below 100". -/
theorem c4_counterexample :
    ∃ r ∈ search_files
        (fun _ => [("2024 report.pdf",
          token_set_ratio_model (fun _ _ => 0) "report 2024" "2024 report.pdf")])
        "report 2024" "root" (FSTree.dir "docs" [] ["2024 report.pdf"]) 5,
      r.score = 100 ∧
      pyIn (pyLower "report 2024") (pyLower r.filename) = false := by
  have hwalk : walkFiles (FSTree.dir "docs" [] ["2024 report.pdf"]) "root" =
      ["root/2024 report.pdf"] := by
    rw [walkFiles]
    decide
  have hsf : search_files
      (fun _ => [("2024 report.pdf",
        token_set_ratio_model (fun _ _ => 0) "report 2024" "2024 report.pdf")])
      "report 2024" "root" (FSTree.dir "docs" [] ["2024 report.pdf"]) 5 =
      [ScoredFile.mk "2024 report.pdf" "root/2024 report.pdf" 100] := by
    simp only [search_files, hwalk]
    decide
  rw [hsf]
  exact ⟨ScoredFile.mk "2024 report.pdf" "root/2024 report.pdf" 100,
    List.mem_singleton.mpr rfl, rfl, by decide⟩

/-- C4 (amended): provided the external scorer stays within its 0..100 range,
every result splits as exact-substring matches (score exactly 100) followed by
fuzzy matches (score in (35, 100], non-substring basenames) — every
exact-substring match is ordered before every fuzzy match, and fuzzy matches
can also reach score 100, in which case the stable sort still keeps them after
the exact block. -/
theorem c4_exact_before_fuzzy (eb : List String → List (String × Nat))
    (target root : String) (tree : FSTree) (limit : Nat)
    (hB : ∀ choices p, p ∈ eb choices → p.2 ≤ 100) :
    ∃ ex fz : List ScoredFile,
      search_files eb target root tree limit = ex ++ fz ∧
      (∀ r ∈ ex, pyIn (pyLower target) (pyLower r.filename) = true ∧
        r.score = 100) ∧
      (∀ r ∈ fz, pyIn (pyLower target) (pyLower r.filename) = false ∧
        35 < r.score ∧ r.score ≤ 100) := by
  obtain ⟨exact, tail, hcase, hexp, htailp, _⟩ :=
    search_files_spec eb target root tree limit
  rcases hcase with ⟨heq, htl⟩ | ⟨heq, _⟩
  · refine ⟨exact.take limit, [], by simpa using heq, ?_, by simp⟩
    intro r hr
    obtain ⟨h1, h2, _⟩ := hexp r (List.take_subset _ _ hr)
    exact ⟨h1, h2⟩
  · have hsort : stableSortDesc (fun r => (r.score : Int)) (exact ++ tail) =
        exact ++ stableSortDesc (fun r => (r.score : Int)) tail := by
      apply stableSortDesc_max_block _ 100
      · intro a ha
        rw [(hexp a ha).2.1]
        rfl
      · intro a ha
        have hle := hB _ _ (htailp a ha).2.2.2
        exact_mod_cast hle
    refine ⟨exact, stableSortDesc (fun r => (r.score : Int)) tail,
      by rw [heq, hsort], ?_, ?_⟩
    · intro r hr
      obtain ⟨h1, h2, _⟩ := hexp r hr
      exact ⟨h1, h2⟩
    · intro r hr
      have hr' : r ∈ tail := (mem_stableSortDesc _ _ _).mp hr
      obtain ⟨h1, h2, _, hbm⟩ := htailp r hr'
      exact ⟨h1, h2, hB _ _ hbm⟩

/-- Witness for C4 (amended) at a concrete tree and a bounded scorer. -/
theorem c4_witness :
    ∃ ex fz : List ScoredFile,
      search_files (fun _ => [("abc.pdf", 50)]) "report" "root"
        (FSTree.dir "docs" [] ["annual report.pdf", "abc.pdf"]) 5 = ex ++ fz ∧
      (∀ r ∈ ex, pyIn (pyLower "report") (pyLower r.filename) = true ∧
        r.score = 100) ∧
      (∀ r ∈ fz, pyIn (pyLower "report") (pyLower r.filename) = false ∧
        35 < r.score ∧ r.score ≤ 100) :=
  c4_exact_before_fuzzy (fun _ => [("abc.pdf", 50)]) "report" "root"
    (FSTree.dir "docs" [] ["annual report.pdf", "abc.pdf"]) 5
    (fun choices p hp => by
      have : p = ("abc.pdf", 50) := by simpa using hp
      rw [this]
      decide)

end EchoVision
